import Mathlib

/-!
# Page-interaction controller of `terraform-3tier-devops/app.js`

A shallow embedding of the event handlers of `app.js`: every handler is a pure
function from the part of the page it reads and writes to the page after the
handler has run.  Elements are identified by their position in document order,
`classList` is a list of class tokens, timers are entries of an explicit queue.
-/

namespace App

/-! ## `classList` -/

/-- Membership test of `classList.contains(c)`. -/
def classListContains (cls : List String) (c : String) : Bool :=
  cls.contains c

/-- Effect of `classList.add(c)`: the token is appended unless already present. -/
def classListAdd (cls : List String) (c : String) : List String :=
  if classListContains cls c then cls else cls ++ [c]

/-- Effect of `classList.remove(c)`: every occurrence of the token is dropped. -/
def classListRemove (cls : List String) (c : String) : List String :=
  cls.filter (fun x => x != c)

/-- Effect of `classList.toggle(c)`: remove the token when present, add it otherwise. -/
def classListToggle (cls : List String) (c : String) : List String :=
  if classListContains cls c then classListRemove cls c else classListAdd cls c

/-- The markup of the check glyph written into a completed badge (line 308) and into a copy
button after a copy (line 147). -/
def checkGlyph : String := "<i class=\"fas fa-check\"></i>"

/-! ## The document: elements in document order -/

/-- An element of the page, with what the handlers read and write: its tag name, its
`id` (the empty string when it has none), its `classList` and its attributes. -/
structure Element where
  tagName : String
  id : String
  classList : List String
  attributes : List (String × String)
  deriving DecidableEq, Repr

/-- Result of `el.getAttribute(name)`: `none` stands for `null`. -/
def getAttribute (e : Element) (name : String) : Option String :=
  (e.attributes.find? (fun a => a.1 == name)).map Prod.snd

/-- The string a value read by `getAttribute` becomes when it is used as an element id
or inside a template literal: `null` is rendered as the text `null`. -/
def jsString : Option String → String
  | none => "null"
  | some v => v

/-- The element at position `i` of the document carries the class `c`. -/
def hasClass (doc : List Element) (i : Nat) (c : String) : Bool :=
  match doc[i]? with
  | some e => classListContains e.classList c
  | none => false

/-- Result of `document.querySelectorAll` for a class selector: the positions of the
matching elements, in document order. -/
def querySelectorAll (doc : List Element) (c : String) : List Nat :=
  (List.range doc.length).filter (fun i => hasClass doc i c)

/-- Result of `document.getElementById(key)`: the position of the first element whose
id is `key`, `none` (for `null`) when there is none; the empty key matches nothing. -/
def getElementById (doc : List Element) (key : String) : Option Nat :=
  if key = "" then none
  else if key ∈ doc.map (fun e => e.id) then some ((doc.map (fun e => e.id)).indexOf key)
  else none

/-- Apply `f` to the elements whose position satisfies `p`, the first element of the
list having position `k`. -/
def modifyFrom (p : Nat → Bool) (f : Element → Element) : Nat → List Element → List Element
  | _, [] => []
  | k, e :: es => (if p k then f e else e) :: modifyFrom p f (k + 1) es

/-- Apply `f` to the elements of the document whose position satisfies `p`. -/
def modifyWhere (p : Nat → Bool) (f : Element → Element) (doc : List Element) :
    List Element :=
  modifyFrom p f 0 doc

/-- Effect of `el.classList.remove(active)`. -/
def removeActive (e : Element) : Element :=
  { e with classList := classListRemove e.classList "active" }

/-- Effect of `el.classList.add(active)`. -/
def addActive (e : Element) : Element :=
  { e with classList := classListAdd e.classList "active" }

/-- What the handlers never change: the id and the attributes of every element. -/
def frame (e : Element) : String × List (String × String) := (e.id, e.attributes)

/-! ## Tab groups (`initTabNavigation`, `initEnvironmentTabs`, `initModuleTabs`,
lines 18-109) -/

/-- What distinguishes the three tab groups: the class of the triggers, the class of
the content elements, the attribute of a trigger that holds its identifier, and the
text put before that identifier to form the id of the content element. -/
structure TabGroup where
  triggerClass : String
  contentClass : String
  attr : String
  idStem : String
  deriving DecidableEq, Repr

/-- The primary group: `.tab-btn`, `.tab-content`, `getElementById(data-tab)`. -/
def primaryTabs : TabGroup := ⟨"tab-btn", "tab-content", "data-tab", ""⟩

/-- The environment group: `.env-tab`, `.env-content`, id `env-` + `data-env`. -/
def environmentTabs : TabGroup := ⟨"env-tab", "env-content", "data-env", "env-"⟩

/-- The module group: `.module-tab`, `.module-section`, id `module-` + `data-module`. -/
def moduleTabs : TabGroup := ⟨"module-tab", "module-section", "data-module", "module-"⟩

/-- What an init function leaves behind: the two node lists it captured with
`querySelectorAll`; every element of `triggers` has the click listener. -/
structure TabListeners where
  group : TabGroup
  triggers : List Nat
  contents : List Nat
  deriving DecidableEq, Repr

/-- The common shape of the three init functions: both node lists are read once. -/
def initTabGroup (g : TabGroup) (doc : List Element) : TabListeners :=
  ⟨g, querySelectorAll doc g.triggerClass, querySelectorAll doc g.contentClass⟩

/-- The function `initTabNavigation` (lines 18-53). -/
def initTabNavigation (doc : List Element) : TabListeners := initTabGroup primaryTabs doc

/-- The function `initEnvironmentTabs` (lines 56-81). -/
def initEnvironmentTabs (doc : List Element) : TabListeners :=
  initTabGroup environmentTabs doc

/-- The function `initModuleTabs` (lines 84-109). -/
def initModuleTabs (doc : List Element) : TabListeners := initTabGroup moduleTabs doc

/-- The id the listener of trigger `btn` looks up: `data-tab` for the primary group,
`env-` or `module-` followed by the attribute for the other two. -/
def targetId (g : TabGroup) (doc : List Element) (btn : Nat) : String :=
  match doc[btn]? with
  | some b => g.idStem ++ jsString (getAttribute b g.attr)
  | none => g.idStem ++ jsString none

/-- The click listener of trigger `btn` (lines 27-51, 61-79, 89-107): `active` is
removed from every trigger and every content element of the captured lists, added
to the clicked trigger, and then added to the element `getElementById` finds, if it
finds one. Logging, scrolling and syntax highlighting change nothing modelled here. -/
def tabListener (l : TabListeners) (btn : Nat) (doc : List Element) : List Element :=
  let target := targetId l.group doc btn
  let doc1 := modifyWhere (fun i => l.triggers.contains i) removeActive doc
  let doc2 := modifyWhere (fun i => l.contents.contains i) removeActive doc1
  let doc3 := modifyWhere (fun i => i == btn) addActive doc2
  match getElementById doc3 target with
  | some j => modifyWhere (fun i => i == j) addActive doc3
  | none => doc3

/-- The element the listener leaves at a position, from the element `e` that was
there: `inT` and `inC` say whether the position is in the captured trigger and
content lists, `isBtn` whether it is the clicked trigger, `found` whether it is the
element `getElementById` returned. -/
def listenerResult (inT inC isBtn found : Bool) (e : Element) : Element :=
  let e1 := if inT then removeActive e else e
  let e2 := if inC then removeActive e1 else e1
  let e3 := if isBtn then addActive e2 else e2
  if found then addActive e3 else e3

/-- A click on the element at position `btn`, as far as the group `l` is concerned:
its listener runs when the element is one of the captured triggers. -/
def tabClick (l : TabListeners) (doc : List Element) (btn : Nat) : List Element :=
  if l.triggers.contains btn then tabListener l btn doc else doc

/-- The document after a sequence of clicks. -/
def tabClicks (l : TabListeners) (doc : List Element) (clicks : List Nat) : List Element :=
  clicks.foldl (tabClick l) doc

/-- A sample page for the primary group: two tab buttons, the first one active with
its panel `overview`; the second names a panel `deploy` that the page does not have. -/
def primaryDoc : List Element :=
  [⟨"BUTTON", "", ["tab-btn", "active"], [("data-tab", "overview")]⟩,
   ⟨"BUTTON", "", ["tab-btn"], [("data-tab", "deploy")]⟩,
   ⟨"DIV", "overview", ["tab-content", "active"], []⟩]

/-- A sample page for the environment group: two environment tabs and their panels
`env-dev` and `env-prod`, the first pair active. -/
def envDoc : List Element :=
  [⟨"BUTTON", "", ["env-tab", "active"], [("data-env", "dev")]⟩,
   ⟨"BUTTON", "", ["env-tab"], [("data-env", "prod")]⟩,
   ⟨"DIV", "env-dev", ["env-content", "active"], []⟩,
   ⟨"DIV", "env-prod", ["env-content"], []⟩]

/-! ## Keyboard support (the `keydown` listener, lines 353-375) -/

/-- The document together with the position of `document.activeElement` and the
positions of the elements that can take the focus. Whether `focus()` moves the focus
to an element is the decision of the browser, from the tag of the element, its
`tabindex`, its disabled state and whether it is rendered (a button that is enabled
and rendered can take it; a `div` without `tabindex`, a disabled or a hidden button
cannot); `app.js` sets none of these. -/
structure KeyPage where
  doc : List Element
  activeElement : Nat
  focusable : List Nat
  deriving DecidableEq, Repr

/-- The list `tabs` of the listener: `Array.from(document.querySelectorAll(.tab-btn))`. -/
def tabButtons (doc : List Element) : List Nat :=
  querySelectorAll doc "tab-btn"

/-- What a click does on the sample primary page: the listener of `initTabNavigation`. -/
def primaryDocClick (btn : Nat) (doc : List Element) : List Element :=
  tabClick (initTabNavigation primaryDoc) doc btn

/-- Effect of `tabs[k].focus()`: the element becomes the active element when it can
take the focus; on an element that cannot, `focus()` does nothing. -/
def focusTab (tabs : List Nat) (k : Nat) (p : KeyPage) : KeyPage :=
  match tabs[k]? with
  | some t => if p.focusable.contains t then { p with activeElement := t } else p
  | none => p

/-- A sample page whose tab triggers are a button, a `div` and a button; the `div`
has no `tabindex`, so it cannot take the focus. The first button has the focus. -/
def mixedTabsPage : KeyPage :=
  { doc :=
      [⟨"BUTTON", "", ["tab-btn", "active"], [("data-tab", "overview")]⟩,
       ⟨"DIV", "", ["tab-btn"], [("data-tab", "deploy")]⟩,
       ⟨"BUTTON", "", ["tab-btn"], [("data-tab", "security")]⟩]
    activeElement := 0
    focusable := [0, 2] }

/-- The sample primary page with its second (last) tab button focused; both tab
buttons can take the focus. -/
def primaryPage : KeyPage :=
  { doc := primaryDoc, activeElement := 1, focusable := [0, 1] }

/-- The `keydown` listener for the key `key` sent to the element at position `target`.
`click` stands for what `e.target.click()` does to the document. The index that
`tabs.indexOf(focusedTab)` returns is never `-1` here: the focused element carries
`tab-btn`, so it is in the list. -/
def keydown (click : Nat → List Element → List Element) (key : String) (target : Nat)
    (p : KeyPage) : KeyPage :=
  let isButton :=
    match p.doc[target]? with
    | some e => e.tagName == "BUTTON"
    | none => false
  let p1 : KeyPage :=
    if key == "Enter" && isButton then { p with doc := click target p.doc } else p
  if key == "ArrowRight" || key == "ArrowLeft" then
    let focusedTab := p1.activeElement
    if hasClass p1.doc focusedTab "tab-btn" then
      let tabs := tabButtons p1.doc
      let currentIndex := tabs.indexOf focusedTab
      if key == "ArrowRight" then
        let nextIndex := (currentIndex + 1) % tabs.length
        focusTab tabs nextIndex p1
      else
        let prevIndex := if currentIndex = 0 then tabs.length - 1 else currentIndex - 1
        focusTab tabs prevIndex p1
    else p1
  else p1

/-! ## Theme toggle (`initThemeToggle`, lines 321-341) -/

/-- The part of the page the theme toggle touches. `colorScheme` is the
`data-color-scheme` attribute of the root element (`none`: attribute absent, what
`getAttribute` reports as `null`); `toggleIcon` is the `classList` of the first `i`
element inside `.theme-toggle` (`none`: `querySelector` finds no such element). -/
structure ThemePage where
  colorScheme : Option String
  toggleIcon : Option (List String)
  deriving DecidableEq, Repr

/-- The click listener registered by `initThemeToggle` (lines 325-340). The attribute
is written before the icon is looked up; with no icon the access `icon.classList`
throws and the rest of the listener is skipped. -/
def themeToggleClick (p : ThemePage) : ThemePage :=
  let currentTheme := p.colorScheme
  let newTheme := if currentTheme = some "dark" then "light" else "dark"
  let p1 : ThemePage := { p with colorScheme := some newTheme }
  match p1.toggleIcon with
  | none => p1
  | some icon =>
    if newTheme = "dark" then
      { p1 with toggleIcon := some (classListAdd (classListRemove icon "fa-moon") "fa-sun") }
    else
      { p1 with toggleIcon := some (classListAdd (classListRemove icon "fa-sun") "fa-moon") }

/-! ## File tree (`initFileTreeToggle`, lines 203-230) -/

/-- One `.tree-node`. `icon` is the `classList` of the first `i` element below the
node, `childrenDisplay` the inline `style.display` of the first `.tree-children`
element below it (`none` when `querySelector` finds nothing); `cursor` is the
inline `style.cursor` of the node and `hasListener` records whether the click
listener of line 215 is attached. -/
structure TreeNode where
  icon : Option (List String)
  childrenDisplay : Option String
  cursor : String
  hasListener : Bool
  deriving DecidableEq, Repr

/-- Body of the `forEach` of `initFileTreeToggle` (lines 206-229) for one node. -/
def initFileTreeToggleNode (node : TreeNode) : TreeNode :=
  match node.childrenDisplay, node.icon with
  | some _, some icon =>
    if classListContains icon "fa-folder" then
      { node with childrenDisplay := some "block", cursor := "pointer", hasListener := true }
    else node
  | _, _ => node

/-- The function `initFileTreeToggle`: every `.tree-node` is visited once. -/
def initFileTreeToggle (folderNodes : List TreeNode) : List TreeNode :=
  folderNodes.map initFileTreeToggleNode

/-- A click on a tree node: the listener of lines 215-227 when it is attached. -/
def treeNodeClick (node : TreeNode) : TreeNode :=
  if node.hasListener then
    match node.childrenDisplay, node.icon with
    | some display, some icon =>
      if display = "none" then
        { node with
          childrenDisplay := some "block"
          icon := some (classListAdd (classListRemove icon "fa-folder") "fa-folder-open") }
      else
        { node with
          childrenDisplay := some "none"
          icon := some (classListAdd (classListRemove icon "fa-folder-open") "fa-folder") }
    | _, _ => node
  else node

/-- The node after `k` clicks on it. -/
def treeNodeClicks : Nat → TreeNode → TreeNode
  | 0, node => node
  | k + 1, node => treeNodeClick (treeNodeClicks k node)

/-- The child list is visible: its inline `display` is not `none`. -/
def childrenVisible (node : TreeNode) : Prop :=
  ∃ d, node.childrenDisplay = some d ∧ d ≠ "none"

/-- The icon shows the open variant: it carries `fa-folder-open` and not `fa-folder`. -/
def iconOpen (node : TreeNode) : Prop :=
  ∃ icon, node.icon = some icon ∧
    classListContains icon "fa-folder-open" = true ∧ classListContains icon "fa-folder" = false

/-- The state a wired node is in after any click: either expanded with the open
icon or collapsed with the closed icon. -/
def TreeSynced (node : TreeNode) : Prop :=
  node.hasListener = true ∧
  ∃ d icon, node.childrenDisplay = some d ∧ node.icon = some icon ∧
    ((d = "block" ∧ classListContains icon "fa-folder-open" = true ∧
        classListContains icon "fa-folder" = false) ∨
     (d = "none" ∧ classListContains icon "fa-folder-open" = false ∧
        classListContains icon "fa-folder" = true))

/-- A sample folder node of the page before initialisation: icon `fas fa-folder`, a
child list without inline display, no listener yet. -/
def folderNode : TreeNode :=
  ⟨some ["fas", "fa-folder"], some "", "", false⟩

/-! ## Step completion (`initProgressTracking`, lines 298-318) -/

/-- One `.step` element. `classes` is its `classList`; `badge` is its first
`.step-number` descendant, as the pair of its `innerHTML` and its inline
`style.background` (`none` when `querySelector` finds nothing). -/
structure Step where
  classes : List String
  badge : Option (String × String)
  deriving DecidableEq, Repr

/-- The click listener of the step at position `index` of
`querySelectorAll(.step)` (lines 304-316), together with the counter
`completedSteps` it shares with the other steps. With no `.step-number` the
property access on `null` throws after the class was toggled. -/
def stepClick (index : Nat) (s : Step × Int) : Step × Int :=
  let step := s.1
  let completedSteps := s.2
  let step1 : Step := { step with classes := classListToggle step.classes "completed" }
  match step1.badge with
  | none => (step1, completedSteps)
  | some _ =>
    if classListContains step1.classes "completed" then
      ({ step1 with badge := some (checkGlyph, "var(--color-success)") }, completedSteps + 1)
    else
      ({ step1 with badge := some (toString (index + 1), "var(--color-primary)") },
        completedSteps - 1)

/-- The step at position `index` after `k` clicks on it. -/
def stepClicks (index : Nat) : Nat → Step × Int → Step × Int
  | 0, s => s
  | k + 1, s => stepClick index (stepClicks index k s)

/-- The completed flag of a step: its `classList` contains `completed`. -/
def isCompleted (step : Step) : Bool :=
  classListContains step.classes "completed"

/-! ## Toast notification (`showCopyNotification`, lines 167-200) and copy buttons
(`initCopyButtons`, lines 112-164) -/

/-- An element created by `showCopyNotification`: its `classList`, its text, its
inline `style.background` and whether it is in the document (has a `parentNode`). -/
structure Toast where
  classList : List String
  textContent : String
  background : String
  inDocument : Bool
  deriving DecidableEq, Repr

/-- A `.copy-btn` element: its `data-copy` attribute, its `innerHTML` and its inline
`style.background` and `style.color`. -/
structure CopyButton where
  dataCopy : Option String
  innerHTML : String
  background : String
  color : String
  deriving DecidableEq, Repr

/-- The callbacks passed to `setTimeout` by the copy code: the show callback of a toast
(lines 187-189), its hide callback (lines 192-199), the removal callback the hide
callback sets (lines 194-198), and the revert callback of a copy button with the
`originalIcon` it captured (lines 151-155). -/
inductive CopyTimer where
  | showToast (n : Nat)
  | hideToast (n : Nat)
  | removeToast (n : Nat)
  | revertButton (btn : Nat) (originalIcon : String)
  deriving DecidableEq, Repr

/-- The page as the copy code sees it. `now` is the clock in milliseconds; `toasts`
holds every element `showCopyNotification` has created, in order of creation, which
is also their document order; `buttons` are the copy buttons; `sources` lists the
id and the text content of the elements that have an id; `clipboard` is the text on
the system clipboard; `textareas` holds the value of every fallback textarea and
whether it is still in the document; `timers` are the pending timers with the time
at which each is due. -/
structure CopyPage where
  now : Nat
  toasts : List Toast
  buttons : List CopyButton
  sources : List (String × String)
  clipboard : Option String
  textareas : List (String × Bool)
  timers : List (Nat × CopyTimer)
  deriving DecidableEq, Repr

/-- The element matches `.copy-notification` and is in the document. -/
def isShownNotification (t : Toast) : Bool :=
  t.inDocument && classListContains t.classList "copy-notification"

/-- The `.copy-notification` elements of the document, in document order. -/
def shownNotifications (p : CopyPage) : List Toast :=
  p.toasts.filter isShownNotification

/-- Lines 169-172: `querySelector(.copy-notification)` finds the first such element of
the document, and `existing.remove()` takes it out of the document. -/
def removeExisting : List Toast → List Toast
  | [] => []
  | t :: ts =>
    if isShownNotification t then { t with inDocument := false } :: ts
    else t :: removeExisting ts

/-- Apply `f` to the element at position `n`, if there is one. -/
def updateAt {α : Type} (f : α → α) : Nat → List α → List α
  | _, [] => []
  | 0, x :: xs => f x :: xs
  | n + 1, x :: xs => x :: updateAt f n xs

/-- The element `showCopyNotification(message, type)` creates (lines 175-181). -/
def newToast (message type : String) : Toast :=
  { classList := ["copy-notification"]
    textContent := message
    background := if type = "error" then "var(--color-error)" else ""
    inDocument := true }

/-- The function `showCopyNotification(message, type)`: an existing notification is
removed, a new one is created and appended to the body, and the timers for showing
it (100 ms) and hiding it (3000 ms) are set. -/
def showCopyNotification (message type : String) (p : CopyPage) : CopyPage :=
  let toasts1 := removeExisting p.toasts
  let n := toasts1.length
  { p with
    toasts := toasts1 ++ [newToast message type]
    timers := p.timers ++
      [(p.now + 100, CopyTimer.showToast n), (p.now + 3000, CopyTimer.hideToast n)] }

/-- The body of a timer callback, run when the timer fires. -/
def runCopyTimer (tm : CopyTimer) (p : CopyPage) : CopyPage :=
  match tm with
  | .showToast n =>
    let reveal : Toast → Toast := fun t =>
      { t with classList := classListAdd t.classList "show" }
    { p with toasts := updateAt reveal n p.toasts }
  | .hideToast n =>
    let hide : Toast → Toast := fun t =>
      { t with classList := classListRemove t.classList "show" }
    { p with
      toasts := updateAt hide n p.toasts
      timers := p.timers ++ [(p.now + 300, CopyTimer.removeToast n)] }
  | .removeToast n =>
    { p with toasts := updateAt (fun t => { t with inDocument := false }) n p.toasts }
  | .revertButton btn originalIcon =>
    let revert : CopyButton → CopyButton := fun b =>
      { b with innerHTML := originalIcon, background := "", color := "" }
    { p with buttons := updateAt revert btn p.buttons }

/-- The pending timer at position `k` of the queue fires: it leaves the queue, the
clock is at least its due time, and its callback runs. -/
def fireTimer (k : Nat) (p : CopyPage) : CopyPage :=
  match p.timers[k]? with
  | none => p
  | some tm =>
    runCopyTimer tm.2 { p with now := max p.now tm.1, timers := p.timers.eraseIdx k }

/-- The position of the pending timer that is due first (the one set first among
timers due at the same time), together with its due time. -/
def earliestDue : List (Nat × CopyTimer) → Option (Nat × Nat)
  | [] => none
  | tm :: rest =>
    match earliestDue rest with
    | none => some (0, tm.1)
    | some (k, due) => if tm.1 ≤ due then some (0, tm.1) else some (k + 1, due)

/-- The event loop up to time `t`: while a pending timer is due at or before `t` the
earliest one fires; then the clock is set to `t`. -/
def runCopyTimers : Nat → Nat → CopyPage → CopyPage
  | 0, t, p => { p with now := max p.now t }
  | fuel + 1, t, p =>
    match earliestDue p.timers with
    | none => { p with now := max p.now t }
    | some (k, due) =>
      if due ≤ t then runCopyTimers fuel t (fireTimer k p)
      else { p with now := max p.now t }

/-- Let time pass until `t`. A timer sets at most one further timer, which sets none,
so twice the number of pending timers bounds the number of firings. -/
def copyAdvanceTo (t : Nat) (p : CopyPage) : CopyPage :=
  runCopyTimers (2 * p.timers.length) t p

/-- How the text is written (lines 126-140): `secure resolves` is the branch taken
when `navigator.clipboard` and a secure context are available, `writeText` resolving
or rejecting; `fallback result` is the textarea branch, where `execCommand(copy)`
throws (`none`) or returns whether it copied (`some true`, `some false`). -/
inductive CopyMethod where
  | secure (resolves : Bool)
  | fallback (result : Option Bool)
  deriving DecidableEq, Repr

/-- Result of `document.getElementById(targetId)` for a copy button, as the text
content of the element found. -/
def copySourceText (sources : List (String × String)) (targetId : Option String) :
    Option String :=
  if jsString targetId = "" then none
  else (sources.find? (fun e => e.1 == jsString targetId)).map Prod.snd

/-- Lines 142-155: the success feedback. The success toast is shown, the markup of
the button is saved in `originalIcon` and replaced by the check glyph, the colours
are set, and the revert timer (1500 ms) is set. -/
def copySucceeded (btn : Nat) (p : CopyPage) : CopyPage :=
  let p1 := showCopyNotification "Code copied to clipboard!" "success" p
  match p1.buttons[btn]? with
  | none => p1
  | some b =>
    let originalIcon := b.innerHTML
    let check : CopyButton → CopyButton := fun b =>
      { b with
        innerHTML := checkGlyph
        background := "var(--color-success)"
        color := "var(--color-btn-primary-text)" }
    { p1 with
      buttons := updateAt check btn p1.buttons
      timers := p1.timers ++ [(p1.now + 1500, CopyTimer.revertButton btn originalIcon)] }

/-- Lines 157-160: the `catch` block. -/
def copyFailed (p : CopyPage) : CopyPage :=
  showCopyNotification "Failed to copy code" "error" p

/-- The click listener of the copy button at position `btn` (lines 116-162), run to
its end with the way of writing `method`: the part of the `async` listener that
follows `await writeText` is taken in the same step as the part before it. Nothing
happens when the target element is missing. In the fallback branch the textarea is
removed only when `execCommand` does not throw. -/
def copyClick (method : CopyMethod) (btn : Nat) (p : CopyPage) : CopyPage :=
  match p.buttons[btn]? with
  | none => p
  | some b =>
    match copySourceText p.sources b.dataCopy with
    | none => p
    | some textToCopy =>
      match method with
      | .secure true => copySucceeded btn { p with clipboard := some textToCopy }
      | .secure false => copyFailed p
      | .fallback (some copied) =>
        copySucceeded btn { p with
          textareas := p.textareas ++ [(textToCopy, false)]
          clipboard := if copied then some textToCopy else p.clipboard }
      | .fallback none =>
        copyFailed { p with textareas := p.textareas ++ [(textToCopy, true)] }

/-- What can happen on the page: a call of `showCopyNotification`, a click on a copy
button, the firing of a pending timer, and time passing. -/
inductive CopyEvent where
  | notify (message type : String)
  | click (method : CopyMethod) (btn : Nat)
  | fire (k : Nat)
  | elapse (d : Nat)
  deriving DecidableEq, Repr

/-- The page after one event. -/
def copyStep (p : CopyPage) : CopyEvent → CopyPage
  | .notify message type => showCopyNotification message type p
  | .click method btn => copyClick method btn p
  | .fire k => fireTimer k p
  | .elapse d => { p with now := p.now + d }

/-- The page after a sequence of events. -/
def copyRun (p : CopyPage) (events : List CopyEvent) : CopyPage :=
  events.foldl copyStep p

/-- The notification a successful copy shows (line 143): the text of the call on a
toast with the default styling, in the document. -/
def successToast : Toast :=
  ⟨["copy-notification"], "Code copied to clipboard!", "", true⟩

/-- The notification a failed copy shows (line 159): the text of the call on a toast
with the error background, in the document. -/
def errorToast : Toast :=
  ⟨["copy-notification"], "Failed to copy code", "var(--color-error)", true⟩

/-- Sample events: two notifications 50 ms apart, then three timers fire, each the
oldest one pending: the show and hide timers of the first notification and the show
timer of the second. -/
def sampleEvents : List CopyEvent :=
  [.notify "first" "success", .elapse 50, .notify "second" "error", .fire 0, .fire 0, .fire 0]

/-- The markup of a copy button of the page. -/
def copyIcon : String := "<i class=\"fas fa-copy\"></i>"

/-- A sample page: one copy button for the element `sql` with text `SELECT 1;`. -/
def copyPage : CopyPage :=
  { now := 0
    toasts := []
    buttons := [⟨some "sql", copyIcon, "", ""⟩]
    sources := [("sql", "SELECT 1;")]
    clipboard := none
    textareas := []
    timers := [] }

/-! ## Debounce (`debounce`, lines 285-295), used by the resize listener (line 269) -/

/-- A timer set by `setTimeout(later, wait)`: its id, the time at which it is due and
the arguments `args` captured by the closure `later`. -/
structure DebounceTimer (α : Type) where
  id : Nat
  due : Nat
  args : α

/-- The state of one debounced function. `now` is the clock in milliseconds,
`timeout` the variable `timeout` of the closure (the id returned by the last
`setTimeout`, `none` while it is `undefined`), `pending` the timers that are set and
have neither fired nor been cleared, `nextId` the id the next `setTimeout` returns,
and `calls` the log of the runs of `func`: the time and the arguments of each. -/
structure Debounce (α : Type) where
  now : Nat
  timeout : Option Nat
  pending : List (DebounceTimer α)
  nextId : Nat
  calls : List (Nat × α)

/-- Effect of `clearTimeout(timeout)` on the timer queue: the timer with that id, if it
is still pending, is dropped; an `undefined` or stale id clears nothing. -/
def clearTimeout {α : Type} (timeout : Option Nat) (pending : List (DebounceTimer α)) :
    List (DebounceTimer α) :=
  match timeout with
  | none => pending
  | some id => pending.filter (fun tm => tm.id != id)

/-- The function `executedFunction` returned by `debounce(func, wait)` (lines 287-294),
called with `args`: the previous timer is cleared and a new one is set `wait` ms ahead. -/
def executedFunction {α : Type} (wait : Nat) (args : α) (s : Debounce α) : Debounce α :=
  let cleared := clearTimeout s.timeout s.pending
  { s with
    pending := cleared ++ [{ id := s.nextId, due := s.now + wait, args := args }]
    timeout := some s.nextId
    nextId := s.nextId + 1 }

/-- The closure `later` (lines 288-291) of the timer `tm`, run when that timer fires:
`clearTimeout(timeout)`, then `func(...args)`, recorded in `calls`. -/
def later {α : Type} (tm : DebounceTimer α) (s : Debounce α) : Debounce α :=
  { s with
    pending := clearTimeout s.timeout s.pending
    calls := s.calls ++ [(s.now, tm.args)] }

/-- The pending timer that is due first (the one set first among timers due at the
same time). -/
def earliestTimer {α : Type} : List (DebounceTimer α) → Option (DebounceTimer α)
  | [] => none
  | tm :: rest =>
    match earliestTimer rest with
    | none => some tm
    | some tm1 => if tm.due ≤ tm1.due then some tm else some tm1

/-- The event loop up to time `t`: as long as a pending timer is due at or before `t`
the earliest one fires, at its due time; then the clock is set to `t`. Every firing
removes a timer and `later` sets none, so `fuel = pending.length` firings suffice. -/
def runTimers {α : Type} : Nat → Nat → Debounce α → Debounce α
  | 0, t, s => { s with now := max s.now t }
  | fuel + 1, t, s =>
    match earliestTimer s.pending with
    | none => { s with now := max s.now t }
    | some tm =>
      if tm.due ≤ t then
        runTimers fuel t
          (later tm { s with
            now := max s.now tm.due
            pending := s.pending.filter (fun tm1 => tm1.id != tm.id) })
      else { s with now := max s.now t }

/-- Let time pass until `t`. -/
def advanceTo {α : Type} (t : Nat) (s : Debounce α) : Debounce α :=
  runTimers s.pending.length t s

/-- A further call of the debounced function, `e.1` ms after the previous event, with
arguments `e.2`. -/
def callAfter {α : Type} (wait : Nat) (s : Debounce α) (e : Nat × α) : Debounce α :=
  executedFunction wait e.2 (advanceTo (s.now + e.1) s)

/-- A burst of calls: a first call with arguments `a0` in state `s`, then the calls
of `rest`, each given with its delay after the previous call. -/
def burst {α : Type} (wait : Nat) (s : Debounce α) (a0 : α) (rest : List (Nat × α)) :
    Debounce α :=
  rest.foldl (callAfter wait) (executedFunction wait a0 s)

/-- The arguments of the last call of a burst. -/
def lastArgs {α : Type} (a0 : α) (rest : List (Nat × α)) : α :=
  (rest.map Prod.snd).getLastD a0

/-- The delay the page passes to `debounce` for its resize listener (line 282). -/
def resizeWait : Nat := 250

/-- The state between the calls of a burst: exactly one timer is pending, it is the
one `timeout` names, it is due at `due` with arguments `a`, and the log of runs is
`calls`. -/
def Armed {α : Type} (due : Nat) (a : α) (calls : List (Nat × α)) (s : Debounce α) : Prop :=
  ∃ id, s.pending = [{ id := id, due := due, args := a }] ∧ s.timeout = some id ∧
    s.calls = calls

end App

namespace App

/-! ## Facts about `classList` -/

theorem classListContains_add_self (cls : List String) (c : String) :
    classListContains (classListAdd cls c) c = true := by
  unfold classListAdd
  by_cases h : classListContains cls c = true
  · simp [h]
  · have h1 : c ∉ cls := by simpa [classListContains] using h
    simp [classListContains, h1]

theorem classListContains_add_of_ne (cls : List String) (c d : String) (h : d ≠ c) :
    classListContains (classListAdd cls c) d = classListContains cls d := by
  unfold classListAdd
  by_cases hc : classListContains cls c = true
  · simp [hc]
  · have h1 : c ∉ cls := by simpa [classListContains] using hc
    simp [classListContains, h1, h]

theorem classListContains_remove_self (cls : List String) (c : String) :
    classListContains (classListRemove cls c) c = false := by
  simp [classListContains, classListRemove]

theorem classListContains_remove_of_ne (cls : List String) (c d : String) (h : d ≠ c) :
    classListContains (classListRemove cls c) d = classListContains cls d := by
  by_cases hd : d ∈ cls <;> simp [classListContains, classListRemove, h, hd]

theorem classListContains_toggle_self (cls : List String) (c : String) :
    classListContains (classListToggle cls c) c = !classListContains cls c := by
  unfold classListToggle
  by_cases h : classListContains cls c = true
  · simp [h, classListContains_remove_self]
  · simp [h, classListContains_add_self]

/-! ## Theme toggle -/

theorem themeToggleClick_colorScheme (p : ThemePage) :
    (themeToggleClick p).colorScheme =
      some (if p.colorScheme = some "dark" then "light" else "dark") := by
  unfold themeToggleClick
  cases p.toggleIcon <;> simp only [] ; split <;> rfl

theorem themeToggleClick_toggleIcon (p : ThemePage) (icon : List String)
    (h : p.toggleIcon = some icon) :
    (themeToggleClick p).toggleIcon =
      some (if p.colorScheme = some "dark"
        then classListAdd (classListRemove icon "fa-sun") "fa-moon"
        else classListAdd (classListRemove icon "fa-moon") "fa-sun") := by
  unfold themeToggleClick
  simp only [h]
  by_cases hd : p.colorScheme = some "dark" <;> simp [hd]

/-- C9: a click on the theme toggle turns the root attribute `dark` into `light` and
`light` into `dark` (so two clicks restore either value), the value after a click is
always one of the two, and the icon of the toggle then carries `fa-sun` and not
`fa-moon` when the new theme is `dark`, `fa-moon` and not `fa-sun` when it is
`light`. -/
theorem themeToggleClick_flips (p : ThemePage) :
    (p.colorScheme = some "dark" → (themeToggleClick p).colorScheme = some "light") ∧
    (p.colorScheme = some "light" → (themeToggleClick p).colorScheme = some "dark") ∧
    ((p.colorScheme = some "dark" ∨ p.colorScheme = some "light") →
      (themeToggleClick (themeToggleClick p)).colorScheme = p.colorScheme) ∧
    ((themeToggleClick p).colorScheme = some "light" ∨
      (themeToggleClick p).colorScheme = some "dark") ∧
    (∀ icon, p.toggleIcon = some icon →
      ∃ icon1, (themeToggleClick p).toggleIcon = some icon1 ∧
        ((themeToggleClick p).colorScheme = some "dark" →
          classListContains icon1 "fa-sun" = true ∧
          classListContains icon1 "fa-moon" = false) ∧
        ((themeToggleClick p).colorScheme = some "light" →
          classListContains icon1 "fa-moon" = true ∧
          classListContains icon1 "fa-sun" = false)) := by
  have hne : ("fa-moon" : String) ≠ "fa-sun" := by decide
  refine ⟨?_, ?_, ?_, ?_, ?_⟩
  · intro h
    simp [themeToggleClick_colorScheme, h]
  · intro h
    simp [themeToggleClick_colorScheme, h]
  · rintro (h | h) <;> simp [themeToggleClick_colorScheme, h]
  · by_cases h : p.colorScheme = some "dark" <;> simp [themeToggleClick_colorScheme, h]
  · intro icon hi
    refine ⟨_, themeToggleClick_toggleIcon p icon hi, ?_, ?_⟩
    · intro hd
      have hnd : ¬ p.colorScheme = some "dark" := by
        intro h
        simp [themeToggleClick_colorScheme, h] at hd
      simp only [hnd, if_false]
      exact ⟨classListContains_add_self _ _, by
        rw [classListContains_add_of_ne _ _ _ hne, classListContains_remove_self]⟩
    · intro hl
      have hd : p.colorScheme = some "dark" := by
        by_contra h
        simp [themeToggleClick_colorScheme, h] at hl
      simp only [hd, if_true]
      exact ⟨classListContains_add_self _ _, by
        rw [classListContains_add_of_ne _ _ _ hne.symm, classListContains_remove_self]⟩

/-! ## File tree -/

theorem treeNodeClick_synced (node : TreeNode) (hl : node.hasListener = true)
    (d : String) (icon : List String) (hd : node.childrenDisplay = some d)
    (hi : node.icon = some icon) : TreeSynced (treeNodeClick node) := by
  have hne : ("fa-folder-open" : String) ≠ "fa-folder" := by decide
  unfold treeNodeClick
  simp only [hl, if_true, hd, hi]
  by_cases hnone : d = "none"
  · simp only [hnone, if_true]
    refine ⟨rfl, "block", _, rfl, rfl, Or.inl ⟨rfl, classListContains_add_self _ _, ?_⟩⟩
    rw [classListContains_add_of_ne _ _ _ hne.symm, classListContains_remove_self]
  · simp only [hnone, if_false]
    refine ⟨rfl, "none", _, rfl, rfl, Or.inr ⟨rfl, ?_, classListContains_add_self _ _⟩⟩
    rw [classListContains_add_of_ne _ _ _ hne, classListContains_remove_self]

theorem TreeSynced.visible_iff_open {node : TreeNode} (h : TreeSynced node) :
    childrenVisible node ↔ iconOpen node := by
  obtain ⟨_, d, icon, hd, hi, hcase⟩ := h
  unfold childrenVisible iconOpen
  rcases hcase with ⟨hb, ho, hf⟩ | ⟨hn, ho, hf⟩
  · constructor
    · intro _
      exact ⟨icon, hi, ho, hf⟩
    · intro _
      exact ⟨d, hd, by rw [hb]; decide⟩
  · constructor
    · rintro ⟨d1, hd1, hne⟩
      rw [hd] at hd1
      cases hd1
      exact absurd hn hne
    · rintro ⟨icon1, hi1, ho1, _⟩
      rw [hi] at hi1
      cases hi1
      rw [ho] at ho1
      cases ho1

theorem treeNodeClicks_synced (node : TreeNode) (hl : node.hasListener = true)
    (d : String) (icon : List String) (hd : node.childrenDisplay = some d)
    (hi : node.icon = some icon) (k : Nat) : TreeSynced (treeNodeClicks (k + 1) node) := by
  induction k with
  | zero => exact treeNodeClick_synced node hl d icon hd hi
  | succ k ih =>
    obtain ⟨hl1, d1, icon1, hd1, hi1, _⟩ := ih
    exact treeNodeClick_synced _ hl1 d1 icon1 hd1 hi1

theorem initFileTreeToggleNode_wired (node : TreeNode) (d : String) (icon : List String)
    (hd : node.childrenDisplay = some d) (hi : node.icon = some icon)
    (hf : classListContains icon "fa-folder" = true) :
    initFileTreeToggleNode node =
      { node with childrenDisplay := some "block", cursor := "pointer", hasListener := true } := by
  unfold initFileTreeToggleNode
  simp [hd, hi, hf]

/-- C3 (initial state): a node that `initFileTreeToggle` wires up (it has a
`.tree-children` container and an icon carrying `fa-folder`) is, right after
initialisation, shown with its child list visible while its icon still carries the
closed class `fa-folder`, so it is not the open variant: visibility and icon are
out of sync before the first click. -/
theorem initFileTreeToggleNode_out_of_sync (node : TreeNode) (d : String)
    (icon : List String) (hd : node.childrenDisplay = some d) (hi : node.icon = some icon)
    (hf : classListContains icon "fa-folder" = true) :
    (initFileTreeToggleNode node).hasListener = true ∧
    childrenVisible (treeNodeClicks 0 (initFileTreeToggleNode node)) ∧
    ¬ iconOpen (treeNodeClicks 0 (initFileTreeToggleNode node)) := by
  rw [initFileTreeToggleNode_wired node d icon hd hi hf]
  refine ⟨rfl, ⟨"block", rfl, by decide⟩, ?_⟩
  rintro ⟨icon1, hi1, _, hclosed⟩
  simp only [treeNodeClicks] at hi1
  rw [hi] at hi1
  cases hi1
  rw [hf] at hclosed
  cases hclosed

/-- C3 (initial state) at a folder node of the page: icon `fas fa-folder`, a child
list with no inline display. -/
theorem initFileTreeToggleNode_out_of_sync_witness :
    (initFileTreeToggleNode folderNode).hasListener = true ∧
    childrenVisible (treeNodeClicks 0 (initFileTreeToggleNode folderNode)) ∧
    ¬ iconOpen (treeNodeClicks 0 (initFileTreeToggleNode folderNode)) :=
  initFileTreeToggleNode_out_of_sync folderNode "" ["fas", "fa-folder"] rfl rfl (by decide)

/-- After initialisation and at least one click on a wired node, the child list is
visible exactly when the icon is the open variant. -/
theorem treeNodeClicks_visible_iff_open (node : TreeNode) (d : String) (icon : List String)
    (hd : node.childrenDisplay = some d) (hi : node.icon = some icon)
    (hf : classListContains icon "fa-folder" = true) (k : Nat) :
    childrenVisible (treeNodeClicks (k + 1) (initFileTreeToggleNode node)) ↔
      iconOpen (treeNodeClicks (k + 1) (initFileTreeToggleNode node)) := by
  rw [initFileTreeToggleNode_wired node d icon hd hi hf]
  exact (treeNodeClicks_synced
    { node with childrenDisplay := some "block", cursor := "pointer", hasListener := true }
    rfl "block" icon rfl hi k).visible_iff_open

/-- One click after initialisation on a folder node of the page. -/
theorem treeNodeClicks_visible_iff_open_witness :
    childrenVisible (treeNodeClicks (0 + 1) (initFileTreeToggleNode folderNode)) ↔
      iconOpen (treeNodeClicks (0 + 1) (initFileTreeToggleNode folderNode)) :=
  treeNodeClicks_visible_iff_open folderNode "" ["fas", "fa-folder"] rfl rfl (by decide) 0

/-! ## Step completion -/

theorem stepClick_isCompleted (index : Nat) (s : Step × Int) :
    isCompleted (stepClick index s).1 = !isCompleted s.1 := by
  unfold stepClick isCompleted
  cases hb : s.1.badge with
  | none => simp [hb, classListContains_toggle_self]
  | some b =>
    simp only [hb]
    split <;> simp [classListContains_toggle_self]

theorem stepClick_badge (index : Nat) (s : Step × Int) (b : String × String)
    (hb : s.1.badge = some b) :
    (stepClick index s).1.badge =
      some (if isCompleted (stepClick index s).1
        then (checkGlyph, "var(--color-success)")
        else (toString (index + 1), "var(--color-primary)")) := by
  have hc := stepClick_isCompleted index s
  unfold stepClick isCompleted at *
  simp only [hb] at hc ⊢
  by_cases h : classListContains (classListToggle s.1.classes "completed") "completed" = true
  · simp [h]
  · simp [h]

theorem stepClicks_badge_isSome (index : Nat) (s : Step × Int) (b : String × String)
    (hb : s.1.badge = some b) (k : Nat) : ∃ b1, (stepClicks index k s).1.badge = some b1 := by
  induction k with
  | zero => exact ⟨b, hb⟩
  | succ k ih =>
    obtain ⟨b1, hb1⟩ := ih
    exact ⟨_, stepClick_badge index _ b1 hb1⟩

/-- C10 (as amended): every click on a step flips its completed flag; after a click
that makes it completed the badge shows the check glyph on the success background,
and after a click that makes it uncompleted the badge shows the position of the step
among all `.step` elements, counted from one (`index + 1`), on the primary
background. -/
theorem stepClicks_flips_and_badge (index : Nat) (s : Step × Int) (b : String × String)
    (hb : s.1.badge = some b) (k : Nat) :
    isCompleted (stepClicks index (k + 1) s).1 = !isCompleted (stepClicks index k s).1 ∧
    (isCompleted (stepClicks index (k + 1) s).1 = true →
      (stepClicks index (k + 1) s).1.badge = some (checkGlyph, "var(--color-success)")) ∧
    (isCompleted (stepClicks index (k + 1) s).1 = false →
      (stepClicks index (k + 1) s).1.badge =
        some (toString (index + 1), "var(--color-primary)")) := by
  obtain ⟨b1, hb1⟩ := stepClicks_badge_isSome index s b hb k
  have hbadge := stepClick_badge index _ b1 hb1
  refine ⟨stepClick_isCompleted index _, ?_, ?_⟩
  · intro h
    simp only [stepClicks] at h ⊢
    rw [hbadge, h]
    rfl
  · intro h
    simp only [stepClicks] at h ⊢
    rw [hbadge, h]
    rfl

/-- C10 (as amended) at the fourth step of a page, for its second click. -/
theorem stepClicks_flips_and_badge_witness :
    isCompleted (stepClicks 3 (1 + 1) (⟨["step"], some ("1", "")⟩, 0)).1 =
      !isCompleted (stepClicks 3 1 (⟨["step"], some ("1", "")⟩, 0)).1 ∧
    (isCompleted (stepClicks 3 (1 + 1) (⟨["step"], some ("1", "")⟩, 0)).1 = true →
      (stepClicks 3 (1 + 1) (⟨["step"], some ("1", "")⟩, 0)).1.badge =
        some (checkGlyph, "var(--color-success)")) ∧
    (isCompleted (stepClicks 3 (1 + 1) (⟨["step"], some ("1", "")⟩, 0)).1 = false →
      (stepClicks 3 (1 + 1) (⟨["step"], some ("1", "")⟩, 0)).1.badge =
        some (toString (3 + 1), "var(--color-primary)")) :=
  stepClicks_flips_and_badge 3 (⟨["step"], some ("1", "")⟩, 0) ("1", "") rfl 1

/-- C10 (counterexample): the fourth `.step` of a page whose badge reads `1` (a
second list of steps numbered from one) is completed and then uncompleted by two
clicks; its badge then reads `4`, not the label it had before. -/
theorem stepClicks_label_not_restored :
    isCompleted (stepClicks 3 1 (⟨["step"], some ("1", "")⟩, 0)).1 = true ∧
    isCompleted (stepClicks 3 2 (⟨["step"], some ("1", "")⟩, 0)).1 = false ∧
    (stepClicks 3 2 (⟨["step"], some ("1", "")⟩, 0)).1.badge =
      some ("4", "var(--color-primary)") ∧
    (stepClicks 3 2 (⟨["step"], some ("1", "")⟩, 0)).1.badge ≠
      some ("1", "var(--color-primary)") := by
  decide

/-! ## Debounce -/

theorem clearTimeout_nil {α : Type} (timeout : Option Nat) :
    clearTimeout timeout ([] : List (DebounceTimer α)) = [] := by
  cases timeout <;> rfl

theorem executedFunction_fresh {α : Type} (wait : Nat) (a : α) (s : Debounce α)
    (h : s.pending = []) :
    Armed (s.now + wait) a s.calls (executedFunction wait a s) ∧
      (executedFunction wait a s).now = s.now := by
  refine ⟨⟨s.nextId, ?_, rfl, rfl⟩, rfl⟩
  simp [executedFunction, h, clearTimeout_nil]

theorem executedFunction_armed {α : Type} (wait due : Nat) (a a1 : α)
    (calls : List (Nat × α)) (s : Debounce α) (h : Armed due a calls s) :
    Armed (s.now + wait) a1 calls (executedFunction wait a1 s) ∧
      (executedFunction wait a1 s).now = s.now := by
  obtain ⟨id, hp, ht, hc⟩ := h
  refine ⟨⟨s.nextId, ?_, rfl, hc⟩, rfl⟩
  simp [executedFunction, hp, ht, clearTimeout]

theorem advanceTo_armed_early {α : Type} (due t : Nat) (a : α) (calls : List (Nat × α))
    (s : Debounce α) (h : Armed due a calls s) (ht : t < due) :
    Armed due a calls (advanceTo t s) ∧ (advanceTo t s).now = max s.now t := by
  obtain ⟨id, hp, htm, hc⟩ := h
  have hnot : ¬ due ≤ t := Nat.not_le.mpr ht
  simp only [advanceTo, hp, List.length_singleton, runTimers, earliestTimer, hnot, if_false]
  exact ⟨⟨id, rfl, htm, hc⟩, trivial⟩

theorem advanceTo_armed_due {α : Type} (due t : Nat) (a : α) (calls : List (Nat × α))
    (s : Debounce α) (h : Armed due a calls s) (hnow : s.now ≤ due) (ht : due ≤ t) :
    (advanceTo t s).calls = calls ++ [(due, a)] ∧ (advanceTo t s).pending = [] := by
  obtain ⟨id, hp, htm, hc⟩ := h
  simp [advanceTo, hp, runTimers, earliestTimer, ht, later, clearTimeout_nil, hc,
    Nat.max_eq_right hnow]

theorem burst_armed {α : Type} (wait : Nat) (s0 : Debounce α) (h0 : s0.pending = [])
    (a0 : α) (rest : List (Nat × α)) (hgap : ∀ e ∈ rest, e.1 < wait) :
    Armed ((burst wait s0 a0 rest).now + wait) (lastArgs a0 rest) s0.calls
        (burst wait s0 a0 rest) ∧
      (burst wait s0 a0 rest).now = s0.now + (rest.map Prod.fst).sum := by
  induction rest using List.reverseRecOn with
  | nil =>
    have h := executedFunction_fresh wait a0 s0 h0
    simp only [burst, List.foldl_nil, lastArgs, List.map_nil, List.getLastD, List.sum_nil,
      Nat.add_zero]
    exact ⟨by rw [h.2]; exact h.1, h.2⟩
  | append_singleton rest e ih =>
    have ih1 := ih (fun x hx => hgap x (by simp [hx]))
    have he : e.1 < wait := hgap e (by simp)
    obtain ⟨harm, hnow⟩ := ih1
    have hstep : burst wait s0 a0 (rest ++ [e]) =
        executedFunction wait e.2
          (advanceTo ((burst wait s0 a0 rest).now + e.1) (burst wait s0 a0 rest)) := by
      simp [burst, List.foldl_append, callAfter]
    have hadv := advanceTo_armed_early _ ((burst wait s0 a0 rest).now + e.1) _ _ _ harm
      (by omega)
    have hex := executedFunction_armed wait _ _ e.2 _ _ hadv.1
    have hlast : lastArgs a0 (rest ++ [e]) = e.2 := by
      simp [lastArgs]
    rw [hstep, hlast, hex.2, hadv.2]
    refine ⟨?_, ?_⟩
    · have := hex.1
      rw [hadv.2] at this
      exact this
    · rw [hnow]
      simp [List.sum_append]
      omega

/-- C8: in a burst of calls to the function returned by `debounce(func, wait)`, each
call arriving less than `wait` after the previous one, no call of the burst runs
`func` (neither at the end of a prefix of the burst nor at any time earlier than
`wait` after the last call), and once `wait` has passed after the last call `func`
has run exactly once, at that time and with the arguments of the last call. -/
theorem debounce_burst_runs_once {α : Type} (wait : Nat) (s0 : Debounce α)
    (h0 : s0.pending = []) (a0 : α) (rest : List (Nat × α))
    (hgap : ∀ e ∈ rest, e.1 < wait) :
    (burst wait s0 a0 rest).now = s0.now + (rest.map Prod.fst).sum ∧
    (∀ n, (burst wait s0 a0 (rest.take n)).calls = s0.calls) ∧
    (∀ t, t < (burst wait s0 a0 rest).now + wait →
      (advanceTo t (burst wait s0 a0 rest)).calls = s0.calls) ∧
    (∀ t, (burst wait s0 a0 rest).now + wait ≤ t →
      (advanceTo t (burst wait s0 a0 rest)).calls =
        s0.calls ++ [((burst wait s0 a0 rest).now + wait, lastArgs a0 rest)]) := by
  obtain ⟨harm, hnow⟩ := burst_armed wait s0 h0 a0 rest hgap
  refine ⟨hnow, ?_, ?_, ?_⟩
  · intro n
    obtain ⟨⟨_, _, _, hc⟩, _⟩ := burst_armed wait s0 h0 a0 (rest.take n)
      (fun e he => hgap e (List.mem_of_mem_take he))
    exact hc
  · intro t ht
    obtain ⟨⟨_, _, _, hc⟩, _⟩ := advanceTo_armed_early _ t _ _ _ harm ht
    exact hc
  · intro t ht
    exact (advanceTo_armed_due _ t _ _ _ harm (Nat.le_add_right _ _) ht).1

/-- C8 at the resize listener: three resize events 100 ms and 200 ms apart, numbered
1200, 900 and 500 after the width of the window at each, debounced with 250 ms. -/
theorem debounce_burst_runs_once_witness :
    (burst resizeWait ⟨0, none, [], 0, []⟩ 1200 [(100, 900), (200, 500)]).now =
      0 + ([(100, 900), (200, 500)].map Prod.fst).sum ∧
    (∀ n, (burst resizeWait ⟨0, none, [], 0, []⟩ 1200
      ([(100, 900), (200, 500)].take n)).calls = []) ∧
    (∀ t, t < (burst resizeWait ⟨0, none, [], 0, []⟩ 1200 [(100, 900), (200, 500)]).now
        + resizeWait →
      (advanceTo t (burst resizeWait ⟨0, none, [], 0, []⟩ 1200
        [(100, 900), (200, 500)])).calls = []) ∧
    (∀ t, (burst resizeWait ⟨0, none, [], 0, []⟩ 1200 [(100, 900), (200, 500)]).now
        + resizeWait ≤ t →
      (advanceTo t (burst resizeWait ⟨0, none, [], 0, []⟩ 1200
        [(100, 900), (200, 500)])).calls =
        [] ++ [((burst resizeWait ⟨0, none, [], 0, []⟩ 1200 [(100, 900), (200, 500)]).now
          + resizeWait, lastArgs 1200 [(100, 900), (200, 500)])]) :=
  debounce_burst_runs_once resizeWait ⟨0, none, [], 0, []⟩ rfl (1200 : Nat)
    [(100, 900), (200, 500)] (by decide)

/-! ## Facts about the document -/

theorem getElem?_modifyFrom (p : Nat → Bool) (f : Element → Element) (doc : List Element) :
    ∀ (k i : Nat), (modifyFrom p f k doc)[i]? =
      (doc[i]?).map (fun e => if p (k + i) then f e else e) := by
  induction doc with
  | nil => intro k i; simp [modifyFrom]
  | cons e es ih =>
    intro k i
    cases i with
    | zero => simp [modifyFrom]
    | succ i =>
      simp only [modifyFrom, List.getElem?_cons_succ, ih]
      have : k + 1 + i = k + (i + 1) := by omega
      rw [this]

theorem getElem?_modifyWhere (p : Nat → Bool) (f : Element → Element) (doc : List Element)
    (i : Nat) :
    (modifyWhere p f doc)[i]? = (doc[i]?).map (fun e => if p i then f e else e) := by
  simp [modifyWhere, getElem?_modifyFrom]

theorem map_modifyFrom {β : Type} (key : Element → β) (p : Nat → Bool)
    (f : Element → Element) (hf : ∀ e, key (f e) = key e) (doc : List Element) :
    ∀ k, (modifyFrom p f k doc).map key = doc.map key := by
  induction doc with
  | nil => intro k; rfl
  | cons e es ih =>
    intro k
    simp only [modifyFrom, List.map_cons, ih]
    by_cases h : p k = true <;> simp [h, hf]

theorem map_modifyWhere {β : Type} (key : Element → β) (p : Nat → Bool)
    (f : Element → Element) (hf : ∀ e, key (f e) = key e) (doc : List Element) :
    (modifyWhere p f doc).map key = doc.map key :=
  map_modifyFrom key p f hf doc 0

theorem frame_addActive (e : Element) : frame (addActive e) = frame e := rfl

theorem frame_removeActive (e : Element) : frame (removeActive e) = frame e := rfl

theorem getElementById_congr (doc doc1 : List Element) (h : doc1.map frame = doc.map frame)
    (key : String) : getElementById doc1 key = getElementById doc key := by
  have hid : doc1.map (fun e => e.id) = doc.map (fun e => e.id) := by
    have := congrArg (List.map Prod.fst) h
    simpa [List.map_map, Function.comp_def, frame] using this
  unfold getElementById
  rw [hid]

theorem targetId_congr (g : TabGroup) (doc doc1 : List Element)
    (h : doc1.map frame = doc.map frame) (btn : Nat) :
    targetId g doc1 btn = targetId g doc btn := by
  have hget : (doc1[btn]?).map frame = (doc[btn]?).map frame := by
    rw [← List.getElem?_map, ← List.getElem?_map, h]
  unfold targetId
  cases h1 : doc1[btn]? with
  | none =>
    cases h2 : doc[btn]? with
    | none => rfl
    | some b => simp [h1, h2] at hget
  | some b1 =>
    cases h2 : doc[btn]? with
    | none => simp [h1, h2] at hget
    | some b =>
      simp only [h1, h2, Option.map_some', Option.some.injEq, frame, Prod.mk.injEq] at hget
      simp [getAttribute, hget.2]

theorem getElementById_lt (doc : List Element) (key : String) (j : Nat)
    (h : getElementById doc key = some j) : j < doc.length := by
  unfold getElementById at h
  split at h
  · cases h
  · split at h
    · rename_i hmem
      cases h
      have := List.indexOf_lt_length.mpr hmem
      simpa using this
    · cases h

theorem getElementById_id (doc : List Element) (key : String) (j : Nat)
    (h : getElementById doc key = some j) : (doc[j]?).map (fun e => e.id) = some key := by
  unfold getElementById at h
  split at h
  · cases h
  · split at h
    · rename_i hmem
      cases h
      rw [← List.getElem?_map]
      have hget := List.indexOf_get? hmem
      rw [List.get?_eq_getElem?] at hget
      exact hget
    · cases h

/-! ## Tab groups -/

theorem contains_addActive (e : Element) :
    classListContains (addActive e).classList "active" = true :=
  classListContains_add_self _ _

theorem contains_removeActive (e : Element) :
    classListContains (removeActive e).classList "active" = false :=
  classListContains_remove_self _ _

theorem contains_listenerResult (inT inC isBtn found : Bool) (e : Element) :
    classListContains (listenerResult inT inC isBtn found e).classList "active" =
      (found || isBtn || (!inT && !inC && classListContains e.classList "active")) := by
  cases inT <;> cases inC <;> cases isBtn <;> cases found <;>
    simp [listenerResult, contains_addActive, contains_removeActive]

theorem tabListener_frame (l : TabListeners) (btn : Nat) (doc : List Element) :
    (tabListener l btn doc).map frame = doc.map frame := by
  have h3 : (modifyWhere (fun i => i == btn) addActive
      (modifyWhere (fun i => l.contents.contains i) removeActive
        (modifyWhere (fun i => l.triggers.contains i) removeActive doc))).map frame =
      doc.map frame := by
    rw [map_modifyWhere frame _ _ frame_addActive, map_modifyWhere frame _ _ frame_removeActive,
      map_modifyWhere frame _ _ frame_removeActive]
  unfold tabListener
  simp only []
  split
  · rw [map_modifyWhere frame _ _ frame_addActive, h3]
  · exact h3

theorem getElem?_tabListener (l : TabListeners) (btn : Nat) (doc : List Element) (i : Nat) :
    (tabListener l btn doc)[i]? =
      (doc[i]?).map (listenerResult (l.triggers.contains i) (l.contents.contains i) (i == btn)
        (getElementById doc (targetId l.group doc btn) == some i)) := by
  have h3 : (modifyWhere (fun i => i == btn) addActive
      (modifyWhere (fun i => l.contents.contains i) removeActive
        (modifyWhere (fun i => l.triggers.contains i) removeActive doc))).map frame =
      doc.map frame := by
    rw [map_modifyWhere frame _ _ frame_addActive, map_modifyWhere frame _ _ frame_removeActive,
      map_modifyWhere frame _ _ frame_removeActive]
  unfold tabListener
  simp only []
  rw [getElementById_congr _ _ h3]
  cases hfind : getElementById doc (targetId l.group doc btn) with
  | none =>
    simp only [getElem?_modifyWhere, Option.map_map]
    congr 1
  | some j =>
    simp only [getElem?_modifyWhere, Option.map_map]
    congr 1
    funext e
    by_cases hij : i = j
    · subst hij
      simp [listenerResult]
    · have hji : ¬ j = i := fun h => hij h.symm
      simp [listenerResult, hij, hji]

theorem hasClass_tabListener (l : TabListeners) (btn : Nat) (doc : List Element) (i : Nat) :
    hasClass (tabListener l btn doc) i "active" =
      (decide (i < doc.length) &&
        ((getElementById doc (targetId l.group doc btn) == some i) || (i == btn) ||
          (!l.triggers.contains i && !l.contents.contains i && hasClass doc i "active"))) := by
  unfold hasClass
  rw [getElem?_tabListener]
  cases hi : doc[i]? with
  | none =>
    have : ¬ i < doc.length := by
      intro h
      rw [List.getElem?_eq_getElem h] at hi
      cases hi
    simp [this]
  | some e =>
    have : i < doc.length := by
      by_contra h
      rw [List.getElem?_eq_none (Nat.le_of_not_lt h)] at hi
      cases hi
    simp only [Option.map_some', contains_listenerResult, this, decide_True, Bool.true_and]

theorem tabClick_frame (l : TabListeners) (doc : List Element) (btn : Nat) :
    (tabClick l doc btn).map frame = doc.map frame := by
  unfold tabClick
  split
  · exact tabListener_frame l btn doc
  · rfl

theorem tabClicks_frame (l : TabListeners) (clicks : List Nat) :
    ∀ doc : List Element, (tabClicks l doc clicks).map frame = doc.map frame := by
  induction clicks with
  | nil => intro doc; rfl
  | cons b bs ih =>
    intro doc
    simp only [tabClicks, List.foldl_cons] at ih ⊢
    rw [ih, tabClick_frame]

theorem length_eq_of_frame (doc doc1 : List Element) (h : doc1.map frame = doc.map frame) :
    doc1.length = doc.length := by
  have := congrArg List.length h
  simpa using this

theorem mem_querySelectorAll_lt (doc : List Element) (c : String) (i : Nat)
    (h : i ∈ querySelectorAll doc c) : i < doc.length := by
  unfold querySelectorAll at h
  rw [List.mem_filter] at h
  exact List.mem_range.mp h.1

theorem tabListener_trigger_active (l : TabListeners) (btn : Nat) (doc : List Element)
    (hbtn : btn < doc.length)
    (hdisj : ∀ i ∈ l.triggers, i ∉ l.contents)
    (hfound : ∀ j, getElementById doc (targetId l.group doc btn) = some j → j ∈ l.contents)
    (i : Nat) (hi : i ∈ l.triggers) :
    hasClass (tabListener l btn doc) i "active" = true ↔ i = btn := by
  rw [hasClass_tabListener]
  have hnf : ¬ getElementById doc (targetId l.group doc btn) = some i :=
    fun h => hdisj i hi (hfound i h)
  constructor
  · intro h
    simp [hnf, hi] at h
    exact h.2
  · intro h
    subst h
    simp [hbtn]

theorem tabListener_content_active (l : TabListeners) (btn : Nat) (doc : List Element)
    (hbtn : btn ∉ l.contents) (j : Nat) (hj : j ∈ l.contents)
    (h : hasClass (tabListener l btn doc) j "active" = true) :
    getElementById doc (targetId l.group doc btn) = some j := by
  rw [hasClass_tabListener] at h
  have hne : ¬ j = btn := fun e => hbtn (e ▸ hj)
  simp [hj, hne] at h
  exact h.2

/-- C1: for every tab group (`primaryTabs`, `environmentTabs` and `moduleTabs` are the
three of the page), after a non-empty sequence of clicks on its triggers exactly one
trigger is active, the last one clicked; every active content element is
the element `getElementById` finds for the identifier of that trigger, so its id is
that identifier; and at most one content element is active. The group is two
separate lists (no trigger is a content element) and every element found by id for a
trigger is a content element of the group. -/
theorem tabClicks_one_active_pair (g : TabGroup) (doc0 : List Element) (clicks : List Nat)
    (hne : clicks ≠ [])
    (hclicks : ∀ b ∈ clicks, b ∈ (initTabGroup g doc0).triggers)
    (hdisj : ∀ i ∈ (initTabGroup g doc0).triggers, i ∉ (initTabGroup g doc0).contents)
    (hfound : ∀ b ∈ (initTabGroup g doc0).triggers, ∀ j,
      getElementById doc0 (targetId g doc0 b) = some j → j ∈ (initTabGroup g doc0).contents) :
    (∀ i ∈ (initTabGroup g doc0).triggers,
      (hasClass (tabClicks (initTabGroup g doc0) doc0 clicks) i "active" = true ↔
        i = clicks.getLast hne)) ∧
    (∀ j ∈ (initTabGroup g doc0).contents,
      hasClass (tabClicks (initTabGroup g doc0) doc0 clicks) j "active" = true →
        getElementById (tabClicks (initTabGroup g doc0) doc0 clicks)
            (targetId g (tabClicks (initTabGroup g doc0) doc0 clicks) (clicks.getLast hne)) =
          some j ∧
        ((tabClicks (initTabGroup g doc0) doc0 clicks)[j]?).map (fun e => e.id) =
          some (targetId g (tabClicks (initTabGroup g doc0) doc0 clicks)
            (clicks.getLast hne))) ∧
    (∀ j ∈ (initTabGroup g doc0).contents, ∀ j1 ∈ (initTabGroup g doc0).contents,
      hasClass (tabClicks (initTabGroup g doc0) doc0 clicks) j "active" = true →
      hasClass (tabClicks (initTabGroup g doc0) doc0 clicks) j1 "active" = true → j = j1) := by
  have hlast : clicks.getLast hne ∈ (initTabGroup g doc0).triggers :=
    hclicks _ (List.getLast_mem hne)
  have hsplit : clicks = clicks.dropLast ++ [clicks.getLast hne] :=
    (List.dropLast_append_getLast hne).symm
  have hframe := tabClicks_frame (initTabGroup g doc0) clicks.dropLast doc0
  have hfinal : tabClicks (initTabGroup g doc0) doc0 clicks =
      tabListener (initTabGroup g doc0) (clicks.getLast hne)
        (tabClicks (initTabGroup g doc0) doc0 clicks.dropLast) := by
    conv_lhs => rw [hsplit]
    simp [tabClicks, List.foldl_append, tabClick, hlast]
  have hlt : clicks.getLast hne <
      (tabClicks (initTabGroup g doc0) doc0 clicks.dropLast).length := by
    rw [length_eq_of_frame _ _ hframe]
    exact mem_querySelectorAll_lt doc0 g.triggerClass _ hlast
  have hfound1 : ∀ j, getElementById (tabClicks (initTabGroup g doc0) doc0 clicks.dropLast)
      (targetId (initTabGroup g doc0).group
        (tabClicks (initTabGroup g doc0) doc0 clicks.dropLast) (clicks.getLast hne)) = some j →
      j ∈ (initTabGroup g doc0).contents := by
    intro j hj
    rw [getElementById_congr _ _ hframe, targetId_congr _ _ _ hframe] at hj
    exact hfound _ hlast j hj
  have hframe2 := tabListener_frame (initTabGroup g doc0) (clicks.getLast hne)
    (tabClicks (initTabGroup g doc0) doc0 clicks.dropLast)
  have hcontent : ∀ j ∈ (initTabGroup g doc0).contents,
      hasClass (tabClicks (initTabGroup g doc0) doc0 clicks) j "active" = true →
        getElementById (tabClicks (initTabGroup g doc0) doc0 clicks)
            (targetId g (tabClicks (initTabGroup g doc0) doc0 clicks) (clicks.getLast hne)) =
          some j := by
    intro j hj hact
    rw [hfinal] at hact ⊢
    rw [getElementById_congr _ _ hframe2, targetId_congr _ _ _ hframe2]
    exact tabListener_content_active _ _ _ (hdisj _ hlast) j hj hact
  refine ⟨?_, ?_, ?_⟩
  · intro i hi
    rw [hfinal]
    exact tabListener_trigger_active _ _ _ hlt hdisj hfound1 i hi
  · intro j hj hact
    exact ⟨hcontent j hj hact, getElementById_id _ _ _ (hcontent j hj hact)⟩
  · intro j hj j1 hj1 hact hact1
    have h1 := hcontent j hj hact
    have h2 := hcontent j1 hj1 hact1
    rw [h1] at h2
    exact Option.some.inj h2

theorem found_in_contents_of_all (g : TabGroup) (doc : List Element)
    (triggers contents : List Nat)
    (h : (triggers.all fun b =>
      match getElementById doc (targetId g doc b) with
      | some j => contents.contains j
      | none => true) = true) :
    ∀ b ∈ triggers, ∀ j,
      getElementById doc (targetId g doc b) = some j → j ∈ contents := by
  intro b hb j hj
  rw [List.all_eq_true] at h
  have := h b hb
  rw [hj] at this
  simpa using this

/-- C1 on the sample environment page, for the clicks on the second tab, the first
tab and the second tab again. -/
theorem tabClicks_one_active_pair_witness :
    (∀ i ∈ (initTabGroup environmentTabs envDoc).triggers,
      (hasClass (tabClicks (initTabGroup environmentTabs envDoc) envDoc [1, 0, 1]) i "active"
          = true ↔
        i = [1, 0, 1].getLast (by decide))) ∧
    (∀ j ∈ (initTabGroup environmentTabs envDoc).contents,
      hasClass (tabClicks (initTabGroup environmentTabs envDoc) envDoc [1, 0, 1]) j "active"
          = true →
        getElementById (tabClicks (initTabGroup environmentTabs envDoc) envDoc [1, 0, 1])
            (targetId environmentTabs
              (tabClicks (initTabGroup environmentTabs envDoc) envDoc [1, 0, 1])
              ([1, 0, 1].getLast (by decide))) =
          some j ∧
        ((tabClicks (initTabGroup environmentTabs envDoc) envDoc [1, 0, 1])[j]?).map
            (fun e => e.id) =
          some (targetId environmentTabs
            (tabClicks (initTabGroup environmentTabs envDoc) envDoc [1, 0, 1])
            ([1, 0, 1].getLast (by decide)))) ∧
    (∀ j ∈ (initTabGroup environmentTabs envDoc).contents,
      ∀ j1 ∈ (initTabGroup environmentTabs envDoc).contents,
      hasClass (tabClicks (initTabGroup environmentTabs envDoc) envDoc [1, 0, 1]) j "active"
        = true →
      hasClass (tabClicks (initTabGroup environmentTabs envDoc) envDoc [1, 0, 1]) j1 "active"
        = true → j = j1) :=
  tabClicks_one_active_pair environmentTabs envDoc [1, 0, 1] (by decide) (by decide)
    (by decide) (found_in_contents_of_all environmentTabs envDoc _ _ (by decide))

/-- C2 (counterexample): on the sample primary page the panel `overview` is active;
a click on the second tab, whose identifier `deploy` matches no element, leaves that
panel without the active marker. -/
theorem tabClick_missing_target_clears_content :
    1 ∈ (initTabNavigation primaryDoc).triggers ∧
    2 ∈ (initTabNavigation primaryDoc).contents ∧
    hasClass primaryDoc 2 "active" = true ∧
    getElementById primaryDoc (targetId primaryTabs primaryDoc 1) = none ∧
    hasClass (tabClick (initTabNavigation primaryDoc) primaryDoc 1) 2 "active" = false := by
  decide

/-- C2 (as amended): a click on a trigger whose identifier matches no element of the
document removes the active marker from every content element of the group, so the
group is left with no active content; the clicked trigger becomes the active one. -/
theorem tabClick_missing_target_blank (l : TabListeners) (doc : List Element) (btn : Nat)
    (hbtn : btn ∈ l.triggers) (hlt : btn < doc.length) (hnc : btn ∉ l.contents)
    (hnone : getElementById doc (targetId l.group doc btn) = none) :
    (∀ c ∈ l.contents, hasClass (tabClick l doc btn) c "active" = false) ∧
    hasClass (tabClick l doc btn) btn "active" = true := by
  have hc : tabClick l doc btn = tabListener l btn doc := by
    simp [tabClick, hbtn]
  rw [hc]
  refine ⟨?_, ?_⟩
  · intro c hcm
    rw [hasClass_tabListener, hnone]
    have hne : ¬ c = btn := fun e => hnc (e ▸ hcm)
    simp [hcm, hne]
  · rw [hasClass_tabListener]
    simp [hlt]

/-- C2 (as amended) on the sample primary page, for a click on its second tab. -/
theorem tabClick_missing_target_blank_witness :
    (∀ c ∈ (initTabNavigation primaryDoc).contents,
      hasClass (tabClick (initTabNavigation primaryDoc) primaryDoc 1) c "active" = false) ∧
    hasClass (tabClick (initTabNavigation primaryDoc) primaryDoc 1) 1 "active" = true :=
  tabClick_missing_target_blank (initTabNavigation primaryDoc) primaryDoc 1 (by decide)
    (by decide) (by decide) (by decide)

/-! ## Keyboard support -/

theorem nodup_querySelectorAll (doc : List Element) (c : String) :
    (querySelectorAll doc c).Nodup :=
  (List.nodup_range doc.length).filter _

theorem hasClass_of_mem_querySelectorAll (doc : List Element) (c : String) (i : Nat)
    (h : i ∈ querySelectorAll doc c) : hasClass doc i c = true := by
  unfold querySelectorAll at h
  rw [List.mem_filter] at h
  exact h.2

theorem prevIndex_eq (i n : Nat) (hi : i < n) :
    (if i = 0 then n - 1 else i - 1) = (i + n - 1) % n := by
  by_cases h0 : i = 0
  · subst h0
    simp only [if_true, Nat.zero_add]
    exact (Nat.mod_eq_of_lt (by omega)).symm
  · simp only [h0, if_false]
    have : i + n - 1 = (i - 1) + n := by omega
    rw [this, Nat.add_mod_right, Nat.mod_eq_of_lt (by omega)]

theorem keydown_arrowRight (click : Nat → List Element → List Element) (target : Nat)
    (p : KeyPage) (i : Nat) (hi : i < (tabButtons p.doc).length)
    (hfocus : (tabButtons p.doc)[i] = p.activeElement) :
    keydown click "ArrowRight" target p =
      focusTab (tabButtons p.doc)
        ((i + 1) % (tabButtons p.doc).length) p := by
  have hmem : p.activeElement ∈ tabButtons p.doc := by
    rw [← hfocus]
    exact List.getElem_mem _
  have hcls := hasClass_of_mem_querySelectorAll _ _ _ hmem
  have hidx : (tabButtons p.doc).indexOf p.activeElement = i := by
    rw [← hfocus]
    exact List.indexOf_getElem (nodup_querySelectorAll _ _) i hi
  have hk : (("ArrowRight" : String) == "Enter") = false := by decide
  simp [keydown, hk, hcls, hidx]

theorem keydown_arrowLeft (click : Nat → List Element → List Element) (target : Nat)
    (p : KeyPage) (i : Nat) (hi : i < (tabButtons p.doc).length)
    (hfocus : (tabButtons p.doc)[i] = p.activeElement) :
    keydown click "ArrowLeft" target p =
      focusTab (tabButtons p.doc)
        ((i + (tabButtons p.doc).length - 1) %
          (tabButtons p.doc).length) p := by
  have hmem : p.activeElement ∈ tabButtons p.doc := by
    rw [← hfocus]
    exact List.getElem_mem _
  have hcls := hasClass_of_mem_querySelectorAll _ _ _ hmem
  have hidx : (tabButtons p.doc).indexOf p.activeElement = i := by
    rw [← hfocus]
    exact List.indexOf_getElem (nodup_querySelectorAll _ _) i hi
  have hk : (("ArrowLeft" : String) == "Enter") = false := by decide
  have hk2 : (("ArrowLeft" : String) == "ArrowRight") = false := by decide
  rw [← prevIndex_eq i _ hi]
  simp [keydown, hk, hk2, hcls, hidx]

theorem focusTab_of_lt (tabs : List Nat) (k : Nat) (p : KeyPage) (hk : k < tabs.length) :
    ∃ t, tabs[k]? = some t ∧
      (t ∈ p.focusable → (focusTab tabs k p).activeElement = t) ∧
      (t ∉ p.focusable → (focusTab tabs k p).activeElement = p.activeElement) ∧
      (focusTab tabs k p).doc = p.doc ∧ (focusTab tabs k p).focusable = p.focusable := by
  refine ⟨tabs[k], List.getElem?_eq_getElem hk, ?_, ?_, ?_, ?_⟩ <;>
    by_cases hf : tabs[k] ∈ p.focusable <;>
    simp [focusTab, List.getElem?_eq_getElem hk, hf]

/-- C7 (counterexample): on the sample page whose second tab trigger is a `div` that
cannot take the focus, the first trigger (index 0 of three) is focused and
`ArrowRight` is pressed. The trigger at index `(0 + 1) % 3` is element 1, but the
focus is still on element 0. -/
theorem keydown_arrowRight_focus_stays :
    tabButtons mixedTabsPage.doc = [0, 1, 2] ∧
    (tabButtons mixedTabsPage.doc)[0]? = some mixedTabsPage.activeElement ∧
    (tabButtons mixedTabsPage.doc)[(0 + 1) % 3]? = some 1 ∧
    (keydown (fun _ doc => doc) "ArrowRight" 0 mixedTabsPage).activeElement = 0 ∧
    (keydown (fun _ doc => doc) "ArrowRight" 0 mixedTabsPage).activeElement ≠ 1 := by
  decide

/-- C7 (as amended): with the primary tab triggers `tabs` in document order, `n` of
them, and the trigger at index `i` focused, `ArrowRight` calls `focus()` on the
trigger at index `(i + 1) % n` and `ArrowLeft` on the one at index `(i + n - 1) % n`:
the focus moves to that trigger when it can take the focus and stays where it was
when it cannot. Both indices are within bounds, `ArrowRight` on the last trigger
focuses the first, `ArrowLeft` on the first focuses the last (each when it can take
the focus), and the document (every class of every element, so every active
marker) is left as it was. -/
theorem keydown_arrows_move_focus (click : Nat → List Element → List Element) (target : Nat)
    (p : KeyPage) (tabs : List Nat) (n i : Nat) (htabs : tabs = tabButtons p.doc)
    (hn : n = tabs.length) (hi : i < n) (hfocus : tabs[i]? = some p.activeElement) :
    (i + 1) % n < n ∧
    (i + n - 1) % n < n ∧
    (∃ t, tabs[(i + 1) % n]? = some t ∧
      (t ∈ p.focusable → (keydown click "ArrowRight" target p).activeElement = t) ∧
      (t ∉ p.focusable →
        (keydown click "ArrowRight" target p).activeElement = p.activeElement)) ∧
    (keydown click "ArrowRight" target p).doc = p.doc ∧
    (∃ t, tabs[(i + n - 1) % n]? = some t ∧
      (t ∈ p.focusable → (keydown click "ArrowLeft" target p).activeElement = t) ∧
      (t ∉ p.focusable →
        (keydown click "ArrowLeft" target p).activeElement = p.activeElement)) ∧
    (keydown click "ArrowLeft" target p).doc = p.doc ∧
    (i + 1 = n → ∃ t, tabs[0]? = some t ∧
      (t ∈ p.focusable → (keydown click "ArrowRight" target p).activeElement = t)) ∧
    (i = 0 → ∃ t, tabs[n - 1]? = some t ∧
      (t ∈ p.focusable → (keydown click "ArrowLeft" target p).activeElement = t)) := by
  subst hn
  subst htabs
  have hpos : 0 < (tabButtons p.doc).length := by omega
  have hf : (tabButtons p.doc)[i] = p.activeElement := by
    rw [List.getElem?_eq_getElem hi] at hfocus
    exact Option.some.inj hfocus
  have hr := keydown_arrowRight click target p i hi hf
  have hl := keydown_arrowLeft click target p i hi hf
  have hrb := Nat.mod_lt (i + 1) hpos
  have hlb := Nat.mod_lt (i + (tabButtons p.doc).length - 1) hpos
  obtain ⟨tR, hRget, hRyes, hRno, hRdoc, _⟩ := focusTab_of_lt (tabButtons p.doc) _ p hrb
  obtain ⟨tL, hLget, hLyes, hLno, hLdoc, _⟩ := focusTab_of_lt (tabButtons p.doc) _ p hlb
  rw [← hr] at hRyes hRno hRdoc
  rw [← hl] at hLyes hLno hLdoc
  refine ⟨hrb, hlb, ⟨tR, hRget, hRyes, hRno⟩, hRdoc, ⟨tL, hLget, hLyes, hLno⟩, hLdoc, ?_, ?_⟩
  · intro hlast
    have h0 : (i + 1) % (tabButtons p.doc).length = 0 := by
      rw [hlast]
      exact Nat.mod_self _
    rw [h0] at hRget
    exact ⟨tR, hRget, hRyes⟩
  · intro hfirst
    have h0 : (i + (tabButtons p.doc).length - 1) % (tabButtons p.doc).length =
        (tabButtons p.doc).length - 1 := by
      rw [hfirst, Nat.zero_add]
      exact Nat.mod_eq_of_lt (by omega)
    rw [h0] at hLget
    exact ⟨tL, hLget, hLyes⟩

/-- C7 (as amended) on the sample primary page, whose tabs are the elements 0 and 1
and can both take the focus, with the second (last) tab focused. -/
theorem keydown_arrows_move_focus_witness :
    (1 + 1) % 2 < 2 ∧
    (1 + 2 - 1) % 2 < 2 ∧
    (∃ t, [0, 1][(1 + 1) % 2]? = some t ∧
      (t ∈ primaryPage.focusable →
        (keydown primaryDocClick "ArrowRight" 1 primaryPage).activeElement = t) ∧
      (t ∉ primaryPage.focusable →
        (keydown primaryDocClick "ArrowRight" 1 primaryPage).activeElement =
          primaryPage.activeElement)) ∧
    (keydown primaryDocClick "ArrowRight" 1 primaryPage).doc = primaryPage.doc ∧
    (∃ t, [0, 1][(1 + 2 - 1) % 2]? = some t ∧
      (t ∈ primaryPage.focusable →
        (keydown primaryDocClick "ArrowLeft" 1 primaryPage).activeElement = t) ∧
      (t ∉ primaryPage.focusable →
        (keydown primaryDocClick "ArrowLeft" 1 primaryPage).activeElement =
          primaryPage.activeElement)) ∧
    (keydown primaryDocClick "ArrowLeft" 1 primaryPage).doc = primaryPage.doc ∧
    (1 + 1 = 2 → ∃ t, [0, 1][0]? = some t ∧
      (t ∈ primaryPage.focusable →
        (keydown primaryDocClick "ArrowRight" 1 primaryPage).activeElement = t)) ∧
    (1 = 0 → ∃ t, [0, 1][2 - 1]? = some t ∧
      (t ∈ primaryPage.focusable →
        (keydown primaryDocClick "ArrowLeft" 1 primaryPage).activeElement = t)) :=
  keydown_arrows_move_focus primaryDocClick 1 primaryPage [0, 1] 2 1 (by decide) rfl
    (by decide) rfl

/-! ## Toast notification -/

theorem filter_removeExisting (ts : List Toast)
    (h : (ts.filter isShownNotification).length ≤ 1) :
    (removeExisting ts).filter isShownNotification = [] := by
  induction ts with
  | nil => rfl
  | cons t ts ih =>
    unfold removeExisting
    by_cases ht : isShownNotification t = true
    · simp only [ht, if_true]
      have hoff : isShownNotification { t with inDocument := false } = false := by
        simp [isShownNotification]
      rw [List.filter_cons_of_neg (by simp [hoff])]
      rw [List.filter_cons_of_pos ht] at h
      simp only [List.length_cons] at h
      exact List.length_eq_zero.mp (by omega)
    · simp only [ht]
      rw [List.filter_cons_of_neg ht] at h
      rw [if_neg (by simp), List.filter_cons_of_neg ht]
      exact ih h

theorem length_filter_updateAt (f : Toast → Toast)
    (hf : ∀ t, isShownNotification (f t) = true → isShownNotification t = true)
    (ts : List Toast) :
    ∀ n, ((updateAt f n ts).filter isShownNotification).length ≤
      (ts.filter isShownNotification).length := by
  induction ts with
  | nil => intro n; simp [updateAt]
  | cons t ts ih =>
    intro n
    cases n with
    | zero =>
      simp only [updateAt]
      by_cases h1 : isShownNotification (f t) = true
      · rw [List.filter_cons_of_pos h1, List.filter_cons_of_pos (hf t h1)]
        simp
      · rw [List.filter_cons_of_neg h1]
        by_cases h2 : isShownNotification t = true
        · rw [List.filter_cons_of_pos h2]
          simp
        · rw [List.filter_cons_of_neg h2]
    | succ n =>
      simp only [updateAt]
      by_cases h2 : isShownNotification t = true
      · rw [List.filter_cons_of_pos h2, List.filter_cons_of_pos h2]
        simp only [List.length_cons]
        exact Nat.succ_le_succ (ih n)
      · rw [List.filter_cons_of_neg h2, List.filter_cons_of_neg h2]
        exact ih n

theorem isShownNotification_newToast (message type : String) :
    isShownNotification (newToast message type) = true := by
  simp [isShownNotification, newToast, classListContains]

theorem showCopyNotification_shown (message type : String) (p : CopyPage)
    (h : (shownNotifications p).length ≤ 1) :
    (showCopyNotification message type p).toasts =
        removeExisting p.toasts ++ [newToast message type] ∧
      (removeExisting p.toasts).filter isShownNotification = [] ∧
      shownNotifications (showCopyNotification message type p) = [newToast message type] := by
  have hrem := filter_removeExisting p.toasts h
  refine ⟨rfl, hrem, ?_⟩
  simp only [shownNotifications, showCopyNotification, List.filter_append, hrem, List.nil_append]
  rw [List.filter_cons_of_pos (isShownNotification_newToast message type)]
  rfl

theorem runCopyTimer_shown (tm : CopyTimer) (p : CopyPage) :
    (shownNotifications (runCopyTimer tm p)).length ≤ (shownNotifications p).length := by
  have hne : ("copy-notification" : String) ≠ "show" := by decide
  cases tm with
  | showToast n =>
    apply length_filter_updateAt
    intro t ht
    simpa [isShownNotification, classListContains_add_of_ne _ _ _ hne] using ht
  | hideToast n =>
    apply length_filter_updateAt
    intro t ht
    simpa [isShownNotification, classListContains_remove_of_ne _ _ _ hne] using ht
  | removeToast n =>
    apply length_filter_updateAt
    intro t ht
    simp [isShownNotification] at ht
  | revertButton btn icon => exact Nat.le_refl _

theorem fireTimer_shown (k : Nat) (p : CopyPage) :
    (shownNotifications (fireTimer k p)).length ≤ (shownNotifications p).length := by
  unfold fireTimer
  cases p.timers[k]? with
  | none => exact Nat.le_refl _
  | some tm => exact runCopyTimer_shown tm.2 _

theorem copySucceeded_shown (btn : Nat) (p : CopyPage)
    (h : (shownNotifications p).length ≤ 1) :
    shownNotifications (copySucceeded btn p) = [successToast] := by
  have hs := (showCopyNotification_shown "Code copied to clipboard!" "success" p h).2.2
  unfold copySucceeded
  simp only []
  split
  · exact hs
  · exact hs

theorem copySucceeded_length (btn : Nat) (p : CopyPage)
    (h : (shownNotifications p).length ≤ 1) :
    (shownNotifications (copySucceeded btn p)).length ≤ 1 := by
  rw [copySucceeded_shown btn p h]
  simp

theorem copyFailed_shown (p : CopyPage) (h : (shownNotifications p).length ≤ 1) :
    shownNotifications (copyFailed p) = [errorToast] :=
  (showCopyNotification_shown _ _ p h).2.2

theorem copyFailed_length (p : CopyPage) (h : (shownNotifications p).length ≤ 1) :
    (shownNotifications (copyFailed p)).length ≤ 1 := by
  rw [copyFailed_shown p h]
  simp

theorem copyClick_shown (method : CopyMethod) (btn : Nat) (p : CopyPage)
    (h : (shownNotifications p).length ≤ 1) :
    (shownNotifications (copyClick method btn p)).length ≤ 1 := by
  unfold copyClick
  split
  · exact h
  · split
    · exact h
    · split
      · exact copySucceeded_length btn _ h
      · exact copyFailed_length _ h
      · exact copySucceeded_length btn _ h
      · exact copyFailed_length _ h

theorem copyStep_shown (p : CopyPage) (e : CopyEvent)
    (h : (shownNotifications p).length ≤ 1) :
    (shownNotifications (copyStep p e)).length ≤ 1 := by
  cases e with
  | notify message type =>
    simp only [copyStep]
    rw [(showCopyNotification_shown message type p h).2.2]
    simp
  | click method btn => exact copyClick_shown method btn p h
  | fire k => exact Nat.le_trans (fireTimer_shown k p) h
  | elapse d => exact h

theorem copyRun_shown (events : List CopyEvent) :
    ∀ p : CopyPage, (shownNotifications p).length ≤ 1 →
      (shownNotifications (copyRun p events)).length ≤ 1 := by
  induction events with
  | nil => intro p h; exact h
  | cons e es ih =>
    intro p h
    simp only [copyRun, List.foldl_cons] at ih ⊢
    exact ih _ (copyStep_shown p e h)

/-- C4: starting from a document with no `.copy-notification` element, after any
sequence of calls of `showCopyNotification`, clicks on copy buttons, firings of
pending timers (in any order) and passing of time, the document holds at most one
`.copy-notification` element; and right after a further call it holds exactly one,
the element that call created: it is the last element created, and none of the
elements created before is in the document any more. -/
theorem showCopyNotification_at_most_one (p0 : CopyPage) (h0 : shownNotifications p0 = [])
    (events : List CopyEvent) :
    (shownNotifications (copyRun p0 events)).length ≤ 1 ∧
    ∀ message type : String,
      (showCopyNotification message type (copyRun p0 events)).toasts =
        removeExisting (copyRun p0 events).toasts ++ [newToast message type] ∧
      (removeExisting (copyRun p0 events).toasts).filter isShownNotification = [] ∧
      shownNotifications (showCopyNotification message type (copyRun p0 events)) =
        [newToast message type] := by
  have hinv : (shownNotifications (copyRun p0 events)).length ≤ 1 :=
    copyRun_shown events p0 (by simp [h0])
  exact ⟨hinv, fun message type => showCopyNotification_shown message type _ hinv⟩

/-- C4 on the sample page: two notifications 50 ms apart, then the two timers of the
first one and the show timer of the second one fire. -/
theorem showCopyNotification_at_most_one_witness :
    (shownNotifications (copyRun copyPage sampleEvents)).length ≤ 1 ∧
    ∀ message type : String,
      (showCopyNotification message type (copyRun copyPage sampleEvents)).toasts =
        removeExisting (copyRun copyPage sampleEvents).toasts ++ [newToast message type] ∧
      (removeExisting (copyRun copyPage sampleEvents).toasts).filter isShownNotification = [] ∧
      shownNotifications (showCopyNotification message type (copyRun copyPage sampleEvents)) =
        [newToast message type] :=
  showCopyNotification_at_most_one copyPage rfl sampleEvents

/-! ## Copy buttons -/

theorem copySucceeded_clipboard (btn : Nat) (p : CopyPage) :
    (copySucceeded btn p).clipboard = p.clipboard ∧
      (copySucceeded btn p).textareas = p.textareas := by
  unfold copySucceeded
  simp only []
  split <;> exact ⟨rfl, rfl⟩

/-- C5 (the code at two clicks): on the sample page the copy button is clicked, with a
successful copy, at time 0 and again 500 ms later, before the revert timer of the
first click (due at 1500 ms) fires. Once every timer has fired the colours of the
button are cleared but its markup is the check glyph, not the copy icon it had
before the clicks: the second click saved the check glyph as `originalIcon`. After
a single click the button does get its copy icon back. -/
theorem copyClick_twice_keeps_check_glyph :
    (copyAdvanceTo 10000 (copyClick (.secure true) 0 (copyAdvanceTo 500
      (copyClick (.secure true) 0 copyPage)))).buttons =
        [⟨some "sql", checkGlyph, "", ""⟩] ∧
    (copyAdvanceTo 10000 (copyClick (.secure true) 0 (copyAdvanceTo 500
      (copyClick (.secure true) 0 copyPage)))).timers = [] ∧
    checkGlyph ≠ copyIcon ∧
    (copyAdvanceTo 10000 (copyClick (.secure true) 0 copyPage)).buttons =
      [⟨some "sql", copyIcon, "", ""⟩] := by
  decide

/-- C6: for a copy button whose `data-copy` names an element with text `t`: when the
write succeeds, `t` is on the clipboard (secure branch), or `t` is the value given
to the fallback textarea and is on the clipboard (fallback branch), and the only
notification in the document is the success toast; when the write is rejected or
throws, the only notification in the document is the error toast with the error
background, so no success toast is shown, and the button is as it was. -/
theorem copyClick_writes_and_notifies (btn : Nat) (p : CopyPage) (b : CopyButton) (t : String)
    (hb : p.buttons[btn]? = some b) (ht : copySourceText p.sources b.dataCopy = some t)
    (hone : (shownNotifications p).length ≤ 1) :
    (copyClick (.secure true) btn p).clipboard = some t ∧
    shownNotifications (copyClick (.secure true) btn p) = [successToast] ∧
    (copyClick (.fallback (some true)) btn p).textareas = p.textareas ++ [(t, false)] ∧
    (copyClick (.fallback (some true)) btn p).clipboard = some t ∧
    shownNotifications (copyClick (.fallback (some true)) btn p) = [successToast] ∧
    shownNotifications (copyClick (.secure false) btn p) = [errorToast] ∧
    (copyClick (.secure false) btn p).buttons = p.buttons ∧
    (copyClick (.fallback none) btn p).textareas = p.textareas ++ [(t, true)] ∧
    shownNotifications (copyClick (.fallback none) btn p) = [errorToast] ∧
    (copyClick (.fallback none) btn p).buttons = p.buttons := by
  have e1 : copyClick (.secure true) btn p =
      copySucceeded btn { p with clipboard := some t } := by
    simp [copyClick, hb, ht]
  have e2 : copyClick (.fallback (some true)) btn p =
      copySucceeded btn { p with
        textareas := p.textareas ++ [(t, false)], clipboard := some t } := by
    simp [copyClick, hb, ht]
  have e3 : copyClick (.secure false) btn p = copyFailed p := by
    simp [copyClick, hb, ht]
  have e4 : copyClick (.fallback none) btn p =
      copyFailed { p with textareas := p.textareas ++ [(t, true)] } := by
    simp [copyClick, hb, ht]
  rw [e1, e2, e3, e4]
  refine ⟨?_, ?_, ?_, ?_, ?_, ?_, rfl, rfl, ?_, rfl⟩
  · rw [(copySucceeded_clipboard btn _).1]
  · exact copySucceeded_shown btn _ hone
  · rw [(copySucceeded_clipboard btn _).2]
  · rw [(copySucceeded_clipboard btn _).1]
  · exact copySucceeded_shown btn _ hone
  · exact copyFailed_shown p hone
  · exact copyFailed_shown _ hone

/-- C6 on the sample page, whose copy button names the element with text
`SELECT 1;`. -/
theorem copyClick_writes_and_notifies_witness :
    (copyClick (.secure true) 0 copyPage).clipboard = some "SELECT 1;" ∧
    shownNotifications (copyClick (.secure true) 0 copyPage) = [successToast] ∧
    (copyClick (.fallback (some true)) 0 copyPage).textareas =
      copyPage.textareas ++ [("SELECT 1;", false)] ∧
    (copyClick (.fallback (some true)) 0 copyPage).clipboard = some "SELECT 1;" ∧
    shownNotifications (copyClick (.fallback (some true)) 0 copyPage) = [successToast] ∧
    shownNotifications (copyClick (.secure false) 0 copyPage) = [errorToast] ∧
    (copyClick (.secure false) 0 copyPage).buttons = copyPage.buttons ∧
    (copyClick (.fallback none) 0 copyPage).textareas =
      copyPage.textareas ++ [("SELECT 1;", true)] ∧
    shownNotifications (copyClick (.fallback none) 0 copyPage) = [errorToast] ∧
    (copyClick (.fallback none) 0 copyPage).buttons = copyPage.buttons :=
  copyClick_writes_and_notifies 0 copyPage ⟨some "sql", copyIcon, "", ""⟩ "SELECT 1;" rfl
    (by decide) (by decide)

end App
